import Mathlib

/-!
Shallow embedding of `src/lib/src/facts/osx/processor_resolver.cc`
(`facter::facts::osx::processor_resolver::resolve_structured_processors`).

The routine performs three OS queries (`sysctlbyname`):
  * `hw.logicalcpu_max`  — logical processor count (fixed-size int read);
  * `hw.physicalcpu_max` — physical processor count (fixed-size int read);
  * `machdep.cpu.brand_string` — CPU model string, read into a growable
    buffer that starts at 256 bytes and doubles on `ENOMEM`.

We model the outcomes of these queries by an environment `Env`: the two
integer queries either fail (`none`) or succeed with a value (`some n`);
the string query is a function from the offered buffer size to a result
(success with the resulting string, `ENOMEM`, or another error).  The
fact collection is a list of named values, and `collection::add` is an
append.  The retry loop is embedded with explicit fuel: a `none` overall
result means the fuel bound was hit, i.e. the loop did not stop within it.
-/

namespace Facter

/-- Result of one `sysctlbyname("machdep.cpu.brand_string", ...)` call at a
given buffer size: success with the string placed in the buffer, failure
with `errno = ENOMEM`, or failure with any other `errno`. -/
inductive BrandRes where
  | ok (s : String)
  | enomem
  | err
deriving DecidableEq, Repr

/-- Outcomes of the OS queries during one execution:
`logical` and `physical` are the results of the two fixed-size integer
queries (`none` = nonzero return, i.e. failure); `brand` gives the
string-query result as a function of the buffer size passed to it. -/
structure Env where
  logical : Option Int
  physical : Option Int
  brand : Nat → BrandRes

/-- Fact values: integers, strings, arrays (`array_value`) and
key-ordered maps (`map_value`). -/
inductive Value where
  | int (i : Int)
  | str (s : String)
  | arr (l : List Value)
  | map (m : List (String × Value))

/-- A fact collection: named values in insertion order; `collection::add`
and `map_value::add` append. -/
abbrev Facts := List (String × Value)

/-- The value of the local variable `logical_count`: initialised to `0`,
overwritten with the queried value only when the query succeeds
(lines 24–30 of the source). -/
def logicalCount (env : Env) : Int := env.logical.getD 0

/-- The model-string retry loop (lines 45–57 of the source): invoke the
string query at the current buffer size; on success break out with the
string, on an error other than `ENOMEM` return from the whole function
(modelled as `some none`), on `ENOMEM` double the buffer and retry.
`fuel` bounds the number of iterations; result `none` means the loop ran
for `fuel` iterations without stopping. -/
def modelLoop (brand : Nat → BrandRes) : Nat → Nat → Option (Option String)
  | 0, _ => none
  | fuel + 1, bufsize =>
    match brand bufsize with
    | .ok s => some (some s)
    | .err => some none
    | .enomem => modelLoop brand fuel (bufsize * 2)

/-- Ghost trace of the retry loop: the successive buffer sizes at which it
invokes the string query (same control flow as `modelLoop`, recording
`bufsize` at each iteration, within the same fuel bound). -/
def modelLoopSizes (brand : Nat → BrandRes) : Nat → Nat → List Nat
  | 0, _ => []
  | fuel + 1, bufsize =>
    match brand bufsize with
    | .enomem => bufsize :: modelLoopSizes brand fuel (bufsize * 2)
    | _ => [bufsize]

/-- The contents of the local `processors_value` map, given the
`processor_list` array built by the model step: `"count"` was added iff
the logical query succeeded (line 29), `"physicalcount"` iff the physical
query succeeded (line 38), and `"models"` is added iff `processor_list`
is nonempty (lines 65–67), in that order. -/
def processorsValue (env : Env) (processor_list : List Value) : Facts :=
  ((match env.logical with
    | some n => [("count", Value.int n)]
    | none => []) ++
   (match env.physical with
    | some n => [("physicalcount", Value.int n)]
    | none => [])) ++
  (if 0 < processor_list.length
   then [("models", Value.arr processor_list)]
   else [])

/-- Lines 69–71 of the source: the `"processors"` record is appended to
the collection iff `processors_value` is nonempty. -/
def addIfNonempty (facts : Facts) (pv : Facts) : Option Facts :=
  if pv.isEmpty then some facts
  else some (facts ++ [("processors", Value.map pv)])

/-- `resolve_structured_processors` (lines 19–72 of the source).
If `logical_count > 0` the retry loop runs starting at buffer size 256:
a non-`ENOMEM` error there returns immediately with the collection
unchanged (line 55); success yields `processor_list`, one copy of the
description string per logical processor (lines 60–63).  Otherwise
`processor_list` stays empty.  Finally the `"processors"` record is
appended iff it is nonempty.  The result is `none` exactly when the
retry loop exhausted its fuel. -/
def resolve_structured_processors (env : Env) (fuel : Nat) (facts : Facts) :
    Option Facts :=
  if 0 < logicalCount env then
    match modelLoop env.brand fuel 256 with
    | none => none
    | some none => some facts
    | some (some s) =>
        addIfNonempty facts
          (processorsValue env
            (List.replicate (logicalCount env).toNat (Value.str s)))
  else
    addIfNonempty facts (processorsValue env [])

/-! ### Helper lemmas -/

/-- `addIfNonempty` either leaves the collection unchanged or appends
exactly one `"processors"` record. -/
lemma addIfNonempty_cases (facts pv : Facts) :
    addIfNonempty facts pv = some facts ∨
      ∃ q, addIfNonempty facts pv = some (facts ++ [("processors", Value.map q)]) := by
  unfold addIfNonempty
  split
  · exact Or.inl rfl
  · exact Or.inr ⟨pv, rfl⟩

/-- If `addIfNonempty` produced a collection with a record appended, that
record's contents are the `pv` it was given. -/
lemma addIfNonempty_inv (facts pv q : Facts)
    (h : addIfNonempty facts pv = some (facts ++ [("processors", Value.map q)])) :
    q = pv := by
  unfold addIfNonempty at h
  split at h
  · have h' := Option.some.inj h
    have hlen := congrArg List.length h'
    simp at hlen
  · have h' := Option.some.inj h
    have h2 := List.append_cancel_left h'
    simp at h2
    exact h2.symm

/-- The `"processors"` map never contains a `"count"` entry when the
logical query failed. -/
lemma processorsValue_lookup_count (env : Env) (plist : List Value)
    (h : env.logical = none) :
    (processorsValue env plist).lookup "count" = none := by
  obtain ⟨lo, ph, br⟩ := env
  cases h
  unfold processorsValue
  rcases ph with _ | m <;> split <;> simp_all [List.lookup]

/-- The `"processors"` map never contains a `"physicalcount"` entry when
the physical query failed. -/
lemma processorsValue_lookup_physicalcount (env : Env) (plist : List Value)
    (h : env.physical = none) :
    (processorsValue env plist).lookup "physicalcount" = none := by
  obtain ⟨lo, ph, br⟩ := env
  cases h
  unfold processorsValue
  rcases lo with _ | n <;> split <;> simp_all [List.lookup]

/-- The `"processors"` map has no `"models"` entry when `processor_list`
is empty. -/
lemma processorsValue_lookup_models_nil (env : Env) :
    (processorsValue env []).lookup "models" = none := by
  obtain ⟨lo, ph, br⟩ := env
  unfold processorsValue
  rcases lo with _ | n <;> rcases ph with _ | m <;> simp [List.lookup]

/-- The `"models"` entry of the `"processors"` map is exactly the built
`processor_list`, whenever the latter is nonempty. -/
lemma processorsValue_lookup_models (env : Env) (plist : List Value)
    (h : 0 < plist.length) :
    (processorsValue env plist).lookup "models" = some (Value.arr plist) := by
  obtain ⟨lo, ph, br⟩ := env
  unfold processorsValue
  rw [if_pos h]
  rcases lo with _ | n <;> rcases ph with _ | m <;> simp [List.lookup]

/-- `processors_value` is nonempty whenever the logical query succeeded
(it then contains at least the `"count"` entry). -/
lemma processorsValue_isEmpty_false (env : Env) (plist : List Value) (n : Int)
    (h : env.logical = some n) :
    (processorsValue env plist).isEmpty = false := by
  obtain ⟨lo, ph, br⟩ := env
  cases h
  unfold processorsValue
  rcases ph with _ | m <;> split <;> simp_all

/-- The contents of `processors_value` do not depend on the behaviour of
the model-string query. -/
lemma processorsValue_brand_irrel (env : Env) (b : Nat → BrandRes)
    (plist : List Value) :
    processorsValue { env with brand := b } plist = processorsValue env plist := by
  obtain ⟨lo, ph, br⟩ := env
  rfl

/-- Any `"processors"` record appearing in the output has the contents of
the local `processors_value` map for some built `processor_list`. -/
lemma resolve_record_shape (env : Env) (fuel : Nat) (facts pv : Facts)
    (h : resolve_structured_processors env fuel facts
        = some (facts ++ [("processors", Value.map pv)])) :
    ∃ plist, pv = processorsValue env plist := by
  unfold resolve_structured_processors at h
  split at h
  · rcases hm : modelLoop env.brand fuel 256 with _ | (_ | s) <;> rw [hm] at h
    · exact Option.noConfusion h
    · have h' := congrArg List.length (Option.some.inj h)
      simp at h'
    · exact ⟨_, addIfNonempty_inv _ _ _ h⟩
  · exact ⟨_, addIfNonempty_inv _ _ _ h⟩

/-- When `logical_count` is not positive, the model step is skipped and
any `"processors"` record in the output has the contents of
`processors_value` with an empty `processor_list`. -/
lemma resolve_record_shape_nonpos (env : Env) (fuel : Nat) (facts pv : Facts)
    (hl : ¬ 0 < logicalCount env)
    (h : resolve_structured_processors env fuel facts
        = some (facts ++ [("processors", Value.map pv)])) :
    pv = processorsValue env [] := by
  unfold resolve_structured_processors at h
  rw [if_neg hl] at h
  exact addIfNonempty_inv _ _ _ h

/-- While the query keeps reporting `ENOMEM`, the loop advances through
buffer sizes `s, s*2, s*4, ...`: after `k` insufficient-buffer retries it
continues from buffer size `s * 2 ^ k`. -/
lemma modelLoop_enomem_shift (brand : Nat → BrandRes) :
    ∀ (k fuel s : Nat), (∀ i, i < k → brand (s * 2 ^ i) = BrandRes.enomem) →
      modelLoop brand (k + fuel) s = modelLoop brand fuel (s * 2 ^ k) := by
  intro k
  induction k with
  | zero => intro fuel s _; rw [Nat.zero_add, pow_zero, Nat.mul_one]
  | succ k ih =>
    intro fuel s h
    have h0 : brand s = BrandRes.enomem := by simpa using h 0 (Nat.succ_pos k)
    have h' : ∀ i, i < k → brand (s * 2 * 2 ^ i) = BrandRes.enomem := by
      intro i hi
      have e : s * 2 * 2 ^ i = s * 2 ^ (i + 1) := by ring
      rw [e]
      exact h (i + 1) (Nat.succ_lt_succ hi)
    have e1 : s * 2 * 2 ^ k = s * 2 ^ (k + 1) := by ring
    rw [Nat.succ_add]
    show modelLoop brand ((k + fuel) + 1) s = _
    rw [modelLoop, h0, ih fuel (s * 2) h', e1]

/-- Same advance for the trace of probed buffer sizes: the first `k`
probed sizes are `s * 2 ^ 0, ..., s * 2 ^ (k-1)`. -/
lemma modelLoopSizes_enomem_shift (brand : Nat → BrandRes) :
    ∀ (k fuel s : Nat), (∀ i, i < k → brand (s * 2 ^ i) = BrandRes.enomem) →
      modelLoopSizes brand (k + fuel) s =
        (List.range k).map (fun i => s * 2 ^ i) ++
          modelLoopSizes brand fuel (s * 2 ^ k) := by
  intro k
  induction k with
  | zero => intro fuel s _; rw [Nat.zero_add, pow_zero, Nat.mul_one]; rfl
  | succ k ih =>
    intro fuel s h
    have h0 : brand s = BrandRes.enomem := by simpa using h 0 (Nat.succ_pos k)
    have h' : ∀ i, i < k → brand (s * 2 * 2 ^ i) = BrandRes.enomem := by
      intro i hi
      have e : s * 2 * 2 ^ i = s * 2 ^ (i + 1) := by ring
      rw [e]
      exact h (i + 1) (Nat.succ_lt_succ hi)
    have e1 : s * 2 * 2 ^ k = s * 2 ^ (k + 1) := by ring
    have e2 : (fun i => s * 2 * 2 ^ i) = (fun i => s * 2 ^ i) ∘ Nat.succ := by
      funext i
      simp only [Function.comp_apply, pow_succ]
      ring
    rw [Nat.succ_add]
    show modelLoopSizes brand ((k + fuel) + 1) s = _
    rw [modelLoopSizes, h0, ih fuel (s * 2) h', e1, e2, List.range_succ_eq_map]
    simp

/-- Once the query stops reporting `ENOMEM`, one more iteration ends the
loop: with a non-`ENOMEM` result at the current size, the loop stops and
the trace ends at that size. -/
lemma modelLoop_stop (brand : Nat → BrandRes) (fuel s : Nat)
    (h : brand s ≠ BrandRes.enomem) :
    (modelLoop brand (fuel + 1) s).isSome = true ∧
      modelLoopSizes brand (fuel + 1) s = [s] := by
  rw [modelLoop, modelLoopSizes]
  rcases hb : brand s with s' | _ | _
  · exact ⟨rfl, rfl⟩
  · exact absurd hb h
  · exact ⟨rfl, rfl⟩

/-! ### Claims -/

/-- Claim C1: when the logical count is positive (so the model step runs)
and the model-string query fails with an error other than `ENOMEM`, the
function returns immediately and adds no `"processors"` record to the
collection at all — even though the count/physicalcount data had already
been gathered, it is discarded. -/
theorem claim_C1 (env : Env) (fuel : Nat) (facts : Facts)
    (hl : 0 < logicalCount env)
    (hm : modelLoop env.brand fuel 256 = some none) :
    resolve_structured_processors env fuel facts = some facts := by
  simp [resolve_structured_processors, hl, hm]

/-- Witness for C1: both count queries succeed (4 and 2), the model query
fails with an error other than `ENOMEM`, and the collection comes back
unchanged. -/
theorem claim_C1_witness :
    resolve_structured_processors ⟨some 4, some 2, fun _ => BrandRes.err⟩ 1
      [("x", Value.int 0)] = some [("x", Value.int 0)] :=
  claim_C1 ⟨some 4, some 2, fun _ => BrandRes.err⟩ 1 [("x", Value.int 0)]
    (by decide) rfl

/-- Claim C6: if the logical and the physical query both fail (and hence
the model query is never attempted, since `logical_count` keeps its
initial value 0), no `"processors"` record is added at all: the
collection is returned unchanged. -/
theorem claim_C6 (env : Env) (fuel : Nat) (facts : Facts)
    (hl : env.logical = none) (hp : env.physical = none) :
    resolve_structured_processors env fuel facts = some facts := by
  have hc : logicalCount env = 0 := by simp [logicalCount, hl]
  simp [resolve_structured_processors, hc, addIfNonempty, processorsValue, hl, hp]

/-- Witness for C6: all queries fail; a pre-existing collection is
returned unchanged. -/
theorem claim_C6_witness :
    resolve_structured_processors ⟨none, none, fun _ => BrandRes.err⟩ 1
      [("a", Value.int 1)] = some [("a", Value.int 1)] :=
  claim_C6 ⟨none, none, fun _ => BrandRes.err⟩ 1 [("a", Value.int 1)] rfl rfl

/-- Claim C8: every normal return appends at most one entry to the
caller's collection, keyed `"processors"`, and leaves every pre-existing
entry unchanged (the result is the old collection, possibly with one
record appended at the end). -/
theorem claim_C8 (env : Env) (fuel : Nat) (facts out : Facts)
    (h : resolve_structured_processors env fuel facts = some out) :
    out = facts ∨ ∃ pv, out = facts ++ [("processors", Value.map pv)] := by
  unfold resolve_structured_processors at h
  have key : ∀ pv : Facts, addIfNonempty facts pv = some out →
      out = facts ∨ ∃ q, out = facts ++ [("processors", Value.map q)] := by
    intro pv hadd
    rcases addIfNonempty_cases facts pv with hc | ⟨q, hc⟩
    · exact Or.inl (Option.some.inj (hc ▸ hadd)).symm
    · exact Or.inr ⟨q, (Option.some.inj (hc ▸ hadd)).symm⟩
  split at h
  · rcases hm : modelLoop env.brand fuel 256 with _ | (_ | s) <;> rw [hm] at h
    · exact Option.noConfusion h
    · exact Or.inl (Option.some.inj h).symm
    · exact key _ h
  · exact key _ h

/-- Witness for C8: a concrete successful run adds exactly the one
`"processors"` record at the end of the (empty) collection. -/
theorem claim_C8_witness :
    ([("processors",
        Value.map [("count", Value.int 2), ("physicalcount", Value.int 1),
          ("models", Value.arr [Value.str "M", Value.str "M"])])] : Facts)
        = [] ∨
      ∃ pv, ([("processors",
        Value.map [("count", Value.int 2), ("physicalcount", Value.int 1),
          ("models", Value.arr [Value.str "M", Value.str "M"])])] : Facts)
        = [] ++ [("processors", Value.map pv)] :=
  claim_C8 ⟨some 2, some 1, fun _ => BrandRes.ok "M"⟩ 1 [] _ rfl

/-- Claim C7: the routine never propagates an error to its caller — as
long as the retry loop stops within the fuel bound (or is not entered),
the function returns normally, and the only effect on the collection is
possibly appending the one `"processors"` record; no query failure
surfaces in any other way. -/
theorem claim_C7 (env : Env) (fuel : Nat) (facts : Facts)
    (h : 0 < logicalCount env → modelLoop env.brand fuel 256 ≠ none) :
    ∃ out, resolve_structured_processors env fuel facts = some out ∧
      (out = facts ∨ ∃ pv, out = facts ++ [("processors", Value.map pv)]) := by
  unfold resolve_structured_processors
  have key : ∀ pv : Facts, ∃ out, addIfNonempty facts pv = some out ∧
      (out = facts ∨ ∃ q, out = facts ++ [("processors", Value.map q)]) := by
    intro pv
    rcases addIfNonempty_cases facts pv with hc | ⟨q, hc⟩
    · exact ⟨facts, hc, Or.inl rfl⟩
    · exact ⟨_, hc, Or.inr ⟨q, rfl⟩⟩
  split
  · rcases hm : modelLoop env.brand fuel 256 with _ | (_ | s)
    · next hl => exact absurd hm (h hl)
    · exact ⟨facts, rfl, Or.inl rfl⟩
    · exact key _
  · exact key _

/-- Witness for C7: a concrete run (logical count 1, model query succeeds
on the first try) returns normally with exactly one appended record. -/
theorem claim_C7_witness :
    ∃ out, resolve_structured_processors
        ⟨some 1, none, fun _ => BrandRes.ok "X"⟩ 1 [] = some out ∧
      (out = [] ∨ ∃ pv, out = [] ++ [("processors", Value.map pv)]) :=
  claim_C7 ⟨some 1, none, fun _ => BrandRes.ok "X"⟩ 1 []
    (fun _ hnone => Option.noConfusion hnone)

/-- Claim C2: for every positive logical count `n`, if the model-string
query succeeds returning `s`, the output record's `models` field is an
ordered sequence of exactly `n` entries, every entry equal to `s`. -/
theorem claim_C2 (env : Env) (fuel : Nat) (facts : Facts) (n : Int) (s : String)
    (hn : env.logical = some n) (h0 : 0 < n)
    (hm : modelLoop env.brand fuel 256 = some (some s)) :
    ∃ pv, resolve_structured_processors env fuel facts
        = some (facts ++ [("processors", Value.map pv)]) ∧
      pv.lookup "models"
        = some (Value.arr (List.replicate n.toNat (Value.str s))) := by
  have hc : logicalCount env = n := by simp [logicalCount, hn]
  have hlen : 0 < (List.replicate n.toNat (Value.str s)).length := by
    simp only [List.length_replicate]
    omega
  refine ⟨processorsValue env (List.replicate n.toNat (Value.str s)), ?_,
    processorsValue_lookup_models _ _ hlen⟩
  unfold resolve_structured_processors
  rw [hc, if_pos h0, hm]
  simp [addIfNonempty, processorsValue_isEmpty_false env _ n hn]

/-- Witness for C2: logical count 4, model query succeeds on the first
attempt with `"Example CPU"`: the `models` entry holds exactly 4
identical copies. -/
theorem claim_C2_witness :
    ∃ pv, resolve_structured_processors
        ⟨some 4, none, fun _ => BrandRes.ok "Example CPU"⟩ 1 []
        = some ([] ++ [("processors", Value.map pv)]) ∧
      pv.lookup "models"
        = some (Value.arr
            (List.replicate (4 : Int).toNat (Value.str "Example CPU"))) :=
  claim_C2 ⟨some 4, none, fun _ => BrandRes.ok "Example CPU"⟩ 1 [] 4
    "Example CPU" rfl (by decide) rfl

/-- Claim C4: if the logical (respectively physical) count query fails,
the output record has no `count` (respectively `physicalcount`) entry,
whatever the other two queries did. -/
theorem claim_C4 (env : Env) (fuel : Nat) (facts : Facts) :
    (env.logical = none → ∀ pv, resolve_structured_processors env fuel facts
        = some (facts ++ [("processors", Value.map pv)]) →
        pv.lookup "count" = none) ∧
    (env.physical = none → ∀ pv, resolve_structured_processors env fuel facts
        = some (facts ++ [("processors", Value.map pv)]) →
        pv.lookup "physicalcount" = none) := by
  constructor
  · intro hlo pv hres
    obtain ⟨plist, rfl⟩ := resolve_record_shape env fuel facts pv hres
    exact processorsValue_lookup_count env plist hlo
  · intro hph pv hres
    obtain ⟨plist, rfl⟩ := resolve_record_shape env fuel facts pv hres
    exact processorsValue_lookup_physicalcount env plist hph

/-- Witness for C4: the logical query fails, the physical query succeeds
with 2; the record that comes out has no `count` entry. -/
theorem claim_C4_witness :
    ([("physicalcount", Value.int 2)] : Facts).lookup "count" = none :=
  (claim_C4 ⟨none, some 2, fun _ => BrandRes.err⟩ 1 []).1 rfl
    [("physicalcount", Value.int 2)] rfl

/-- Claim C5: if the logical count resolves to 0, the model-string query
is never consulted (the result is the same for every possible behaviour
of that query) and the output record has no `models` entry. -/
theorem claim_C5 (env : Env) (fuel : Nat) (facts : Facts)
    (h : env.logical = some 0) :
    (∀ b, resolve_structured_processors { env with brand := b } fuel facts
        = resolve_structured_processors env fuel facts) ∧
    (∀ pv, resolve_structured_processors env fuel facts
        = some (facts ++ [("processors", Value.map pv)]) →
        pv.lookup "models" = none) := by
  have hl : ¬ 0 < logicalCount env := by simp [logicalCount, h]
  constructor
  · intro b
    have hl' : ¬ 0 < logicalCount { env with brand := b } := by
      simp [logicalCount, h]
    rw [resolve_structured_processors, resolve_structured_processors,
      if_neg hl, if_neg hl', processorsValue_brand_irrel]
  · intro pv hres
    rw [resolve_record_shape_nonpos env fuel facts pv hl hres]
    exact processorsValue_lookup_models_nil env

/-- Witness for C5: logical count 0, physical count 2, model query would
report `ENOMEM` forever; the record has `count` and `physicalcount` but
no `models`. -/
theorem claim_C5_witness :
    ([("count", Value.int 0), ("physicalcount", Value.int 2)] : Facts).lookup
      "models" = none :=
  (claim_C5 ⟨some 0, some 2, fun _ => BrandRes.enomem⟩ 1 [] rfl).2
    [("count", Value.int 0), ("physicalcount", Value.int 2)] rfl

/-- Claim C9 (implicit): if the logical-count query fails, `logical_count`
keeps its initial value 0, so the model-string query is never consulted
(the result is the same for every possible behaviour of that query) and
the output record has no `models` entry — even when the model query
would have succeeded. -/
theorem claim_C9 (env : Env) (fuel : Nat) (facts : Facts)
    (h : env.logical = none) :
    (∀ b, resolve_structured_processors { env with brand := b } fuel facts
        = resolve_structured_processors env fuel facts) ∧
    (∀ pv, resolve_structured_processors env fuel facts
        = some (facts ++ [("processors", Value.map pv)]) →
        pv.lookup "models" = none) := by
  have hl : ¬ 0 < logicalCount env := by simp [logicalCount, h]
  constructor
  · intro b
    have hl' : ¬ 0 < logicalCount { env with brand := b } := by
      simp [logicalCount, h]
    rw [resolve_structured_processors, resolve_structured_processors,
      if_neg hl, if_neg hl', processorsValue_brand_irrel]
  · intro pv hres
    rw [resolve_record_shape_nonpos env fuel facts pv hl hres]
    exact processorsValue_lookup_models_nil env

/-- Witness for C9: logical query fails while the model query would
succeed; the record that comes out has no `models` entry. -/
theorem claim_C9_witness :
    ([("physicalcount", Value.int 2)] : Facts).lookup "models" = none :=
  (claim_C9 ⟨none, some 2, fun _ => BrandRes.ok "Q"⟩ 1 [] rfl).2
    [("physicalcount", Value.int 2)] rfl

/-- Claim C3: the retry loop starts with a 256-byte buffer and doubles it
on every insufficient-buffer retry, so the `i`-th query is issued with a
buffer of `256 * 2 ^ i` bytes; it stops as soon as the query result is a
success or a non-buffer error (here at retry `k`, with the trace of
probed sizes being exactly `256, 512, ..., 256 * 2 ^ k`). -/
theorem claim_C3 (brand : Nat → BrandRes) (k fuel : Nat)
    (h1 : ∀ i, i < k → brand (256 * 2 ^ i) = BrandRes.enomem)
    (h2 : brand (256 * 2 ^ k) ≠ BrandRes.enomem)
    (hf : k < fuel) :
    modelLoopSizes brand fuel 256
        = (List.range (k + 1)).map (fun i => 256 * 2 ^ i) ∧
      (modelLoop brand fuel 256).isSome = true := by
  obtain ⟨f, rfl⟩ : ∃ f, fuel = k + (f + 1) := ⟨fuel - k - 1, by omega⟩
  obtain ⟨hstop, hsizes⟩ := modelLoop_stop brand f (256 * 2 ^ k) h2
  refine ⟨?_, ?_⟩
  · rw [modelLoopSizes_enomem_shift brand k (f + 1) 256 h1, hsizes,
      List.range_succ]
    simp
  · rw [modelLoop_enomem_shift brand k (f + 1) 256 h1]
    exact hstop

/-- Witness for C3: a query that reports `ENOMEM` below 1024 bytes and
succeeds at 1024: the loop probes exactly the sizes 256, 512, 1024 and
stops. -/
theorem claim_C3_witness :
    modelLoopSizes (fun n => if n < 1024 then BrandRes.enomem else BrandRes.ok "X")
        3 256
        = (List.range 3).map (fun i => 256 * 2 ^ i) ∧
      (modelLoop (fun n => if n < 1024 then BrandRes.enomem else BrandRes.ok "X")
        3 256).isSome = true :=
  claim_C3 (fun n => if n < 1024 then BrandRes.enomem else BrandRes.ok "X")
    2 3 (by decide) (by decide) (by decide)

/-- A possible behaviour of the string query: it succeeds at buffer size
257 — so a finite buffer size at which it succeeds exists — but reports
`ENOMEM` at every other size, in particular at every probed size
`256 * 2 ^ k`. -/
def brandOdd : Nat → BrandRes :=
  fun n => if n = 257 then BrandRes.ok "X" else BrandRes.enomem

/-- Under `brandOdd` the retry loop never stops, whatever the fuel:
every probed size `256 * 2 ^ k` is even or equal to 256, hence not 257. -/
lemma modelLoop_brandOdd (fuel s : Nat) (h : ∀ j : Nat, s * 2 ^ j ≠ 257) :
    modelLoop brandOdd fuel s = none := by
  induction fuel generalizing s with
  | zero => rfl
  | succ f ih =>
    have h0 : brandOdd s = BrandRes.enomem := by
      unfold brandOdd
      rw [if_neg]
      simpa using h 0
    rw [modelLoop, h0]
    refine ih (s * 2) (fun j => ?_)
    have e : s * 2 * 2 ^ j = s * 2 ^ (j + 1) := by ring
    rw [e]
    exact h (j + 1)

/-- Counterexample to claim C10 as stated: it is not true that the loop
stops for every query behaviour that is non-`ENOMEM` at some finite
buffer size — `brandOdd` succeeds at size 257, yet the loop, which only
probes the sizes `256 * 2 ^ k`, runs forever. -/
theorem claim_C10_counterexample :
    ¬ (∀ brand : Nat → BrandRes, (∃ N, brand N ≠ BrandRes.enomem) →
        ∃ fuel, (modelLoop brand fuel 256).isSome = true) := by
  intro hcl
  obtain ⟨fuel, hf⟩ := hcl brandOdd ⟨257, by decide⟩
  rw [modelLoop_brandOdd fuel 256 (fun j hj => ?_)] at hf
  · exact Bool.noConfusion hf
  · have h2 : (2 : Nat) ∣ 256 * 2 ^ j := ⟨128 * 2 ^ j, by ring⟩
    rw [hj] at h2
    omega

/-- Claim C10 (amended): the retry loop terminates for every query
behaviour that, from some finite buffer size `N` on, no longer reports
the insufficient-buffer condition — in particular for the monotone
behaviour of the real query, where the data fits into every
large-enough buffer.  Since the probed size strictly doubles from 256 on
each retry, a probed size `256 * 2 ^ k ≥ N` is reached after finitely
many iterations. -/
theorem claim_C10 (brand : Nat → BrandRes) (N : Nat)
    (h : ∀ m, N ≤ m → brand m ≠ BrandRes.enomem) :
    ∃ fuel, (modelLoop brand fuel 256).isSome = true := by
  have key : ∀ (k fuel s : Nat), k < fuel →
      brand (s * 2 ^ k) ≠ BrandRes.enomem →
      (modelLoop brand fuel s).isSome = true := by
    intro k
    induction k with
    | zero =>
      intro fuel s hf hb
      obtain ⟨f, rfl⟩ : ∃ f, fuel = f + 1 := ⟨fuel - 1, by omega⟩
      rw [pow_zero, Nat.mul_one] at hb
      exact (modelLoop_stop brand f s hb).1
    | succ k ih =>
      intro fuel s hf hb
      obtain ⟨f, rfl⟩ : ∃ f, fuel = f + 1 := ⟨fuel - 1, by omega⟩
      rw [modelLoop]
      rcases hq : brand s with s' | _ | _
      · rfl
      · refine ih f (s * 2) (by omega) ?_
        have e : s * 2 * 2 ^ k = s * 2 ^ (k + 1) := by ring
        rw [e]
        exact hb
      · rfl
  have hN : N ≤ 256 * 2 ^ N := by
    calc N ≤ 2 ^ N := Nat.le_of_lt (Nat.lt_two_pow N)
    _ ≤ 256 * 2 ^ N := Nat.le_mul_of_pos_left _ (by omega)
  exact ⟨N + 1, key N (N + 1) 256 (Nat.lt_succ_self N) (h _ hN)⟩

/-- Witness for C10 (amended): a query that always succeeds makes the
loop stop. -/
theorem claim_C10_witness :
    ∃ fuel, (modelLoop (fun _ => BrandRes.ok "X") fuel 256).isSome = true :=
  claim_C10 (fun _ => BrandRes.ok "X") 0 (fun _ _ h => BrandRes.noConfusion h)

end Facter
